import Mathlib

/-!
# Android-Use orchestration engine: verified model

Shallow embedding of the correlated request/response transport
(`main_files/connection_manager.py`), the receiver routing logic
(`main.py::_receiver`) and the two task-loop state machines
(`task_manager.py` and `android_use_agent/task_manager.py`),
together with theorems settling the specification claims about them.

Content hashes (sha256 / sha1 over canonical JSON) are modelled by the
data they are computed from: two hashes are equal exactly when their
input data coincide (collisions are abstracted away).
-/

/-- A WebSocket message envelope, as routed by `main.py::_receiver`:
a JSON object with an optional `type` field, an optional
`correlation_id` field and an opaque remainder (modelled as a string). -/
structure WsMessage where
  msgType : Option String
  correlation_id : Option String
  content : String
  deriving Repr, DecidableEq

/-- State of an `asyncio.Future` held in the pending-request map:
either still pending, or already completed with a result. -/
inductive FutureState where
  | pending : FutureState
  | done : WsMessage → FutureState
  deriving Repr, DecidableEq

/-- The `_pending_requests` dictionary of `ConnectionManager`, keyed by
correlation id. -/
abbrev PendingMap := List (String × FutureState)

/-- Dictionary lookup (`self._pending_requests.get(cid)`). -/
def pmLookup : PendingMap → String → Option FutureState
  | [], _ => none
  | (k, v) :: rest, cid => if k = cid then some v else pmLookup rest cid

/-- Dictionary removal (`self._pending_requests.pop(cid, None)`):
removes the entry for `cid` if present, otherwise leaves the map alone. -/
def pmPop : PendingMap → String → PendingMap
  | [], _ => []
  | (k, v) :: rest, cid => if k = cid then rest else (k, v) :: pmPop rest cid

/-- Number of entries stored under a given correlation id. -/
def pmCount (m : PendingMap) (cid : String) : Nat :=
  (m.filter (fun kv => kv.1 = cid)).length

/-- Result of `ConnectionManager.resolve_pending_request`: the
pending-request map after the call, and the payload delivered to a
waiter, if any waiter was fulfilled. -/
structure ResolveResult where
  map : PendingMap
  fulfilled : Option WsMessage
  deriving Repr, DecidableEq

/-- `ConnectionManager.resolve_pending_request(correlation_id, response_data)`:
pops the future for `cid` under the lock; if one was found and it is not
yet done, fulfills it with the payload; if it was found but already done,
only a warning is logged; if none was found the response is discarded and
the map is untouched.  The function is total: no branch raises. -/
def resolve_pending_request (m : PendingMap) (cid : String) (p : WsMessage) :
    ResolveResult :=
  match pmLookup m cid with
  | none => ⟨m, none⟩
  | some .pending => ⟨pmPop m cid, some p⟩
  | some (.done _) => ⟨pmPop m cid, none⟩

/-- Events that can hit one call of
`ConnectionManager.send_request_and_wait_for_response` while (or after)
it waits on its future: an inbound response routed to
`resolve_pending_request` with this call's correlation id, the
`asyncio.wait_for` timeout firing, or an internal error while waiting
(the second `except` branch). -/
inductive TransportEvent where
  | resolveEv : WsMessage → TransportEvent
  | timeoutEv : TransportEvent
  | errorEv : TransportEvent
  deriving Repr, DecidableEq

/-- Observable state of one `send_request_and_wait_for_response` call:
the pending-request map, the results delivered to this call's waiter so
far, and the call's outcome (`none` while the caller is still suspended,
`some none` after returning the timeout/error sentinel `None`,
`some (some r)` after returning response `r`). -/
structure CallState where
  pmap : PendingMap
  delivered : List WsMessage
  outcome : Option (Option WsMessage)
  deriving Repr, DecidableEq

/-- One event hitting the call with correlation id `cid`, following the
source: a resolve pops the entry and (iff the future was still pending)
fulfills the waiter, waking the caller; a timeout or internal error makes
the call return `None` and evict its own entry; events arriving after the
call returned find no entry and are discarded. -/
def stepCall (cid : String) (s : CallState) (e : TransportEvent) : CallState :=
  match e with
  | .resolveEv p =>
    let r := resolve_pending_request s.pmap cid p
    match r.fulfilled with
    | some q =>
      { pmap := r.map, delivered := s.delivered ++ [q],
        outcome := if s.outcome.isNone then some (some q) else s.outcome }
    | none => { s with pmap := r.map }
  | .timeoutEv =>
    match s.outcome with
    | none => { pmap := pmPop s.pmap cid, delivered := s.delivered, outcome := some none }
    | some o => { s with outcome := some o }
  | .errorEv =>
    match s.outcome with
    | none => { pmap := pmPop s.pmap cid, delivered := s.delivered, outcome := some none }
    | some o => { s with outcome := some o }

/-- State right after `send_request_and_wait_for_response` registered a
fresh correlation id `cid` (a fresh `uuid4`, hence absent from the prior
map) and sent the request: the entry is pending, nothing delivered,
caller suspended. -/
def initCall (cid : String) (m0 : PendingMap) : CallState :=
  { pmap := m0 ++ [(cid, .pending)], delivered := [], outcome := none }

/-- The whole lifetime of one call: registration followed by a sequence
of events. -/
def runCall (cid : String) (m0 : PendingMap) (events : List TransportEvent) :
    CallState :=
  events.foldl (stepCall cid) (initCall cid m0)

/-- `ConnectionManager.send_request_and_wait_for_response` also receives
the expected response type.  The source keeps the parameter
(`# Keep for potential validation`) but never reads it; the embedding
mirrors that.  The no-connection case returns `None` without registering
anything and is modelled by `connected = false`. -/
def send_request_and_wait_for_response (expected_response_type : String)
    (connected : Bool) (cid : String) (m0 : PendingMap)
    (events : List TransportEvent) : CallState :=
  if connected then runCall cid m0 events
  else { pmap := m0, delivered := [], outcome := some none }

/-- Where `main.py::_receiver` sends an inbound message. -/
inductive RouteAction where
  | resolveFuture : String → WsMessage → RouteAction
  | commandQueue : RouteAction
  | clarification : RouteAction
  | sessionConnectAck : RouteAction
  | discard : RouteAction
  deriving Repr, DecidableEq

/-- The `elif` chain of `_receiver` for messages without a (truthy)
correlation id: `classify_input` / `disconnect_request` / `ping` go to the
command queue, `clarification_response` signals the task loop,
`session_connect` is acknowledged, and everything else (including result
types arriving without a correlation id) is discarded with a warning. -/
def routeByType (msg : WsMessage) : RouteAction :=
  match msg.msgType with
  | some t =>
    if t = "classify_input" ∨ t = "disconnect_request" ∨ t = "ping" then
      .commandQueue
    else if t = "clarification_response" then .clarification
    else if t = "session_connect" then .sessionConnectAck
    else .discard
  | none => .discard

/-- `main.py::_receiver` routing: `if correlation_id:` (Python truthiness,
so present and non-empty) routes the whole message to
`resolve_pending_request`, before and regardless of any inspection of the
`type` field; otherwise the message is routed by type. -/
def receiverRoute (msg : WsMessage) : RouteAction :=
  match msg.correlation_id with
  | some cid => if cid = "" then routeByType msg else .resolveFuture cid msg
  | none => routeByType msg

/-- The ways serializing/sending on the session's WebSocket can fail
inside `ConnectionManager.send_personal_message`: a
`WebSocketDisconnect`, a `RuntimeError` for a closed connection, another
`RuntimeError`, a JSON serialization error, or any other exception. -/
inductive SendErr where
  | wsDisconnect : SendErr
  | runtimeClosed : SendErr
  | runtimeOther : SendErr
  | jsonErr : SendErr
  | otherErr : SendErr
  deriving Repr, DecidableEq

/-- Environment of one `send_personal_message` call: whether the session
has a registered connection, and what the underlying serialize-and-send
does (succeeds, or raises one of the exception kinds). -/
structure SendEnv where
  connected : Bool
  failure : Option SendErr
  deriving Repr, DecidableEq

/-- How a `send_personal_message` call ended, as observable by logs. -/
inductive SendOutcome where
  | sentOk : SendOutcome
  | droppedNoConnection : SendOutcome
  | caughtDisconnect : SendOutcome
  | caughtRuntimeClosed : SendOutcome
  | caughtRuntimeOther : SendOutcome
  | caughtOther : SendOutcome
  deriving Repr, DecidableEq

/-- The serialize-and-send body of the `try` block: raises exactly what
the environment says it raises. -/
def websocketSendAttempt (f : Option SendErr) : Except SendErr Unit :=
  match f with
  | none => .ok ()
  | some e => .error e

/-- `ConnectionManager.send_personal_message`: if no connection is
registered for the session, log a warning and return; otherwise run the
serialize-and-send inside `try`, with `except WebSocketDisconnect`,
`except RuntimeError` (closed-connection message or not) and a final
`except Exception` catch-all, each of which only logs.  The result type
makes propagation representable; the definition never produces
`.error`. -/
def send_personal_message (env : SendEnv) : Except SendErr SendOutcome :=
  if env.connected = false then .ok .droppedNoConnection
  else
    match websocketSendAttempt env.failure with
    | .ok () => .ok .sentOk
    | .error .wsDisconnect => .ok .caughtDisconnect
    | .error .runtimeClosed => .ok .caughtRuntimeClosed
    | .error .runtimeOther => .ok .caughtRuntimeOther
    | .error .jsonErr => .ok .caughtOther
    | .error .otherErr => .ok .caughtOther

/-- Element bounds (`RectModel` in `models.py`). -/
structure Rect where
  left : Int
  top : Int
  right : Int
  bottom : Int
  deriving Repr, DecidableEq

/-- A Target Descriptor (`Selector` in `models.py`), in the dictionary
form the task loops manipulate (`model_dump()`).  A boolean flag read via
`selector.get(key, False)` is truthy exactly when the stored value is
`True`; `none` covers both an absent key and an explicit `None`. -/
structure Selector where
  view_id : Option String
  text : Option String
  content_desc : Option String
  class_name : Option String
  bounds : Option Rect
  is_clickable : Option Bool
  is_long_clickable : Option Bool
  deriving Repr, DecidableEq

/-- Python truthiness of `selector.get(flag, False)`. -/
def flagTruthy (v : Option Bool) : Bool := v = some true

/-- `task_manager.py::_selector_hash`: the stable data fed to
`sha1(json.dumps(..., sort_keys=True))`, namely the values stored under
`view_id`, `text` and `content_desc` when they are not `None`.  The hash
itself is modelled by this input data. -/
def _selector_hash (sel : Selector) : List (String × String) :=
  (match sel.view_id with | some v => [("view_id", v)] | none => []) ++
  (match sel.text with | some v => [("text", v)] | none => []) ++
  (match sel.content_desc with | some v => [("content_desc", v)] | none => [])

/-- `task_manager.py::_validate_clickable`: raises `ValueError` when the
selector is neither clickable nor long-clickable; otherwise returns
normally. -/
def _validate_clickable (sel : Selector) : Except String Unit :=
  if ¬(flagTruthy sel.is_clickable ∨ flagTruthy sel.is_long_clickable) then
    .error "Attempt to tap non-clickable selector"
  else .ok ()

/-- `android_use_agent/task_manager.py::_reject_non_clickable` applied to
a `tap_by_selector` decision: raises `ValueError` when neither
actionability flag is truthy. -/
def _reject_non_clickable (sel : Selector) : Except String Unit :=
  if ¬(flagTruthy sel.is_clickable ∨ flagTruthy sel.is_long_clickable) then
    .error "Blocked tap on NON-actionable node"
  else .ok ()

/-- `collections.deque(maxlen := cap)` append: the new element goes to the
back; when the deque is full the oldest (front) element is evicted. -/
def dequePush (cap : Nat) (d : List α) (x : α) : List α :=
  let d2 := d ++ [x]
  if cap < d2.length then d2.drop (d2.length - cap) else d2

/-- Capacity of `state["failed_tap_hashes"]` in `task_manager.py`
(`deque(maxlen=20)`). -/
def FAILED_TAP_HASHES_MAXLEN : Nat := 20

/-- `MAX_RECENT_FAILED_SELECTORS` in `android_use_agent/task_manager.py`. -/
def MAX_RECENT_FAILED_SELECTORS : Nat := 5

/-- How the pre-dispatch checks of a `tap_by_selector` decision end. -/
inductive GateResult where
  | blockedGuardrail : GateResult
  | blockedMemory : GateResult
  | dispatch : GateResult
  deriving Repr, DecidableEq

/-- The pre-execution checks of `task_manager.py::run_task_loop` for
`tap_by_selector` (guardrail first, then failure memory): call
`_validate_clickable`, then reject when `_selector_hash` is already in
`state["failed_tap_hashes"]`; only otherwise does the action proceed to
dispatch over the transport. -/
def legacyTapGate (failedHashes : List (List (String × String)))
    (sel : Selector) : GateResult :=
  match _validate_clickable sel with
  | .error _ => .blockedGuardrail
  | .ok () =>
    if _selector_hash sel ∈ failedHashes then .blockedMemory else .dispatch

/-- The failure-memory and guardrail checks of
`android_use_agent/task_manager.py::run_task_loop` for `tap_by_selector`
(memory first, comparing whole selector dictionaries for equality, then
`_reject_non_clickable`); only when both pass does the action proceed to
dispatch over the transport. -/
def androidTapGate (mem : List Selector) (sel : Selector) : GateResult :=
  if sel ∈ mem then .blockedMemory
  else
    match _reject_non_clickable sel with
    | .error _ => .blockedGuardrail
    | .ok () => .dispatch

/-- `state["recent_failed_tap_selectors"]` update when the guardrail
blocks a tap in the android loop: the selector is appended immediately. -/
def androidMemAfterGate (mem : List Selector) (sel : Selector) :
    List Selector :=
  match androidTapGate mem sel with
  | .blockedGuardrail => dequePush MAX_RECENT_FAILED_SELECTORS mem sel
  | _ => mem

/-- `MAX_CONSECUTIVE_ACTION_FAILURES` in
`android_use_agent/task_manager.py`. -/
def MAX_CONSECUTIVE_ACTION_FAILURES : Nat := 3

/-- `MAX_STEPS_WITHOUT_STATE_CHANGE` in
`android_use_agent/task_manager.py`. -/
def MAX_STEPS_WITHOUT_STATE_CHANGE : Nat := 3

/-- `MAX_TASK_STEPS` in `task_constants.py`, the default `max_steps` of
the android loop. -/
def MAX_TASK_STEPS : Nat := 25

/-- `MAX_STEPS` in `task_manager.py` (the legacy loop). -/
def LEGACY_MAX_STEPS : Nat := 20

/-- `MAX_CONSECUTIVE_FAILURES` in `task_manager.py` (the legacy loop). -/
def MAX_CONSECUTIVE_FAILURES : Nat := 3

/-- `NO_STATE_CHANGE_LIMIT` in `task_manager.py` (the legacy loop). -/
def NO_STATE_CHANGE_LIMIT : Nat := 5

/-- The Reasoner decision driving one step of the android loop.
`tap` is `tap_by_selector` (with the client's success flag should it be
dispatched); `nodeReq` is one of the four node-query actions (`none` for
a transport timeout, `some b` for a response with success flag `b`);
`direct` is any other executable action except `done`, dispatched as-is;
`doneD` carries both the decision's own `DoneParams.success` flag and the
success flag of the client's execution result; `noAction` is an output
whose `action_name` is `None` (flag: the sub-goal text contains
"complete"). -/
inductive AndroidDecision where
  | tap : Selector → Bool → AndroidDecision
  | nodeReq : Option Bool → AndroidDecision
  | direct : String → Bool → AndroidDecision
  | doneD : Bool → Bool → AndroidDecision
  | noAction : Bool → AndroidDecision
  deriving Repr, DecidableEq

/-- Environment of one android-loop step: whether the screen capture
succeeded, the content hash of the capture (sha256, modelled by its
value), whether the CoreAgent call succeeded, and the decision. -/
structure AndroidStepInput where
  screenshotOk : Bool
  obsHash : Nat
  agentOk : Bool
  decision : AndroidDecision
  deriving Repr, DecidableEq

/-- Outcome of the action-processing section (step 3) of the android
loop: either the `done` break (with the status derived from the client's
success flag), or a completed act phase recording whether a request was
dispatched over the transport, the step's success flags, the failure
memory afterwards, the recorded `last_action_result` success flag, and a
status already chosen before the counter section (`noAction` case). -/
inductive ActOutcome where
  | doneTerm : String → Option Bool → ActOutcome
  | acted : Bool → Bool → Bool → List Selector → Option Bool →
      Option String → ActOutcome
  deriving Repr, DecidableEq

/-- Action processing of `android_use_agent/task_manager.py` (lines
363-568): the memory/guardrail gate for taps, transport dispatch for
node queries and executable actions, the swipe fallback folded into the
final client success flag, recording of failed tap selectors, the `done`
break, and the no-action path that pre-selects `completed` or `stuck`. -/
def androidActPhase (mem : List Selector) (d : AndroidDecision) : ActOutcome :=
  match d with
  | .noAction complete =>
    .acted false false false mem (some true)
      (some (if complete then "completed" else "stuck"))
  | .tap sel cs =>
    match androidTapGate mem sel with
    | .blockedMemory => .acted false false false mem (some false) none
    | .blockedGuardrail =>
      .acted false false false (dequePush MAX_RECENT_FAILED_SELECTORS mem sel)
        (some false) none
    | .dispatch =>
      if cs then .acted true true true mem (some true) none
      else
        .acted true false false
          (if sel ∈ mem then mem else dequePush MAX_RECENT_FAILED_SELECTORS mem sel)
          (some false) none
  | .nodeReq r =>
    match r with
    | none => .acted true false false mem (some false) none
    | some b => .acted true b b mem (some b) none
  | .direct _ cs => .acted true cs cs mem (some cs) none
  | .doneD _ cs => .doneTerm (if cs then "completed" else "failed") (some cs)

/-- Task State of the android loop, as carried across steps by
`run_task_loop`. -/
structure AndroidLoopState where
  stepsTaken : Nat
  consecutiveFailures : Nat
  stepsWithoutChange : Nat
  prevHash : Option Nat
  mem : List Selector
  lastSuccess : Option Bool
  finalStatus : Option String
  deriving Repr, DecidableEq

/-- Helper for the `if final_status != "unknown": break` check (line 592)
reached when neither counter fired. -/
def androidApplyPre (s : AndroidLoopState) (pre : Option String) :
    AndroidLoopState :=
  match pre with
  | some st => { s with finalStatus := some st }
  | none => s

/-- Loop-termination counter section of the android loop (lines
570-592): a successful step with a successful action resets the failure
counter and runs the stagnation check against the previous hash (same
hash for `MAX_STEPS_WITHOUT_STATE_CHANGE` successful steps ends the task
`failed_no_progress`; a differing hash resets the stagnation counter and
stores the new hash); a failed step increments the failure counter,
resets the stagnation counter, and at
`MAX_CONSECUTIVE_ACTION_FAILURES` ends the task
`failed_consecutive_errors`. -/
def androidCounterUpdate (s : AndroidLoopState) (h : Nat)
    (stepSuccess anyActionSucceeded : Bool) (pre : Option String) :
    AndroidLoopState :=
  if stepSuccess && anyActionSucceeded then
    let s1 := { s with consecutiveFailures := 0 }
    match s1.prevHash with
    | some ph =>
      if ph = h then
        let c := s1.stepsWithoutChange + 1
        if MAX_STEPS_WITHOUT_STATE_CHANGE ≤ c then
          { s1 with
            stepsWithoutChange := c
            finalStatus := some "failed_no_progress" }
        else androidApplyPre { s1 with stepsWithoutChange := c } pre
      else
        androidApplyPre
          { s1 with stepsWithoutChange := 0, prevHash := some h } pre
    | none =>
      androidApplyPre { s1 with stepsWithoutChange := 0, prevHash := some h } pre
  else if stepSuccess = false then
    let c := s.consecutiveFailures + 1
    if MAX_CONSECUTIVE_ACTION_FAILURES ≤ c then
      { s with
        consecutiveFailures := c
        stepsWithoutChange := 0
        finalStatus := some "failed_consecutive_errors" }
    else
      androidApplyPre
        { s with consecutiveFailures := c, stepsWithoutChange := 0 } pre
  else androidApplyPre s pre

/-- One full step of the android loop: a failed screen capture or a
failed CoreAgent call sets status `failed` and breaks at once; otherwise
the act phase runs, followed by the counter section (the `done` break
skips the counters). -/
def androidStep (s : AndroidLoopState) (i : AndroidStepInput) :
    AndroidLoopState :=
  if s.finalStatus.isSome then s
  else
    let s1 := { s with stepsTaken := s.stepsTaken + 1 }
    if i.screenshotOk = false then { s1 with finalStatus := some "failed" }
    else if i.agentOk = false then { s1 with finalStatus := some "failed" }
    else
      match androidActPhase s1.mem i.decision with
      | .doneTerm st lastS =>
        { s1 with lastSuccess := lastS, finalStatus := some st }
      | .acted _ stepOk anyA mem2 lastS pre =>
        androidCounterUpdate { s1 with mem := mem2, lastSuccess := lastS }
          i.obsHash stepOk anyA pre

/-- Initial Task State of the android loop. -/
def androidInit : AndroidLoopState :=
  { stepsTaken := 0, consecutiveFailures := 0, stepsWithoutChange := 0,
    prevHash := none, mem := [], lastSuccess := none, finalStatus := none }

/-- `for i in range(max_steps)` with `break` on any terminal status. -/
def androidLoopGo : Nat → List AndroidStepInput → AndroidLoopState →
    AndroidLoopState
  | 0, _, s => s
  | _ + 1, [], s => s
  | fuel + 1, i :: rest, s =>
    if s.finalStatus.isSome then s
    else androidLoopGo fuel rest (androidStep s i)

/-- A whole android-loop run over a scripted environment. -/
def androidRun (maxSteps : Nat) (inputs : List AndroidStepInput) :
    AndroidLoopState :=
  androidLoopGo maxSteps inputs androidInit

/-- Post-loop status logic of the android loop (lines 665-675): a loop
that ends without an explicit status becomes `failed_max_steps` when the
step budget was exhausted and `stuck` otherwise. -/
def androidFinalStatus (maxSteps : Nat) (s : AndroidLoopState) : String :=
  match s.finalStatus with
  | some st => st
  | none => if maxSteps ≤ s.stepsTaken then "failed_max_steps" else "stuck"

/-- The Reasoner decision driving one step of the legacy loop
(`task_manager.py`).  `tap` is `tap_by_selector` with the client's
success flag should it be dispatched; `exec` is any other executable
action; `waitD` is the local `wait`; `doneD` carries the decision's own
`DoneParams.success` flag; `clarifyD` is `request_clarification` (flag:
whether its parameters validate); `unknownA` is an unrecognized action
name.  Node-query decisions are outside the modelled fragment (they do
not interact with any claimed property of this loop). -/
inductive LegacyDecision where
  | tap : Selector → Bool → LegacyDecision
  | exec : String → Bool → LegacyDecision
  | waitD : LegacyDecision
  | doneD : Bool → LegacyDecision
  | clarifyD : Bool → LegacyDecision
  | unknownA : String → LegacyDecision
  deriving Repr, DecidableEq

/-- Environment of one legacy-loop step. -/
structure LegacyStepInput where
  screenshotOk : Bool
  obsHash : Nat
  agentOk : Bool
  decision : LegacyDecision
  deriving Repr, DecidableEq

/-- Task State of the legacy loop, as carried across steps. -/
structure LegacyLoopState where
  stepsTaken : Nat
  consecutiveFailures : Nat
  noStateChangeCount : Nat
  lastStateHash : Option Nat
  failedTapHashes : List (List (String × String))
  lastSuccess : Option Bool
  finalStatus : Option String
  deriving Repr, DecidableEq

/-- The post-action check of the legacy loop (line 491):
`consecutive_failures >= MAX_CONSECUTIVE_FAILURES` ends the task with
status `failed_max_failures`. -/
def legacyAfterAct (s : LegacyLoopState) : LegacyLoopState :=
  if MAX_CONSECUTIVE_FAILURES ≤ s.consecutiveFailures then
    { s with finalStatus := some "failed_max_failures" }
  else s

/-- Recording of a failed tap hash in the legacy loop (lines 428-436):
appended to the `deque(maxlen=20)` unless already present. -/
def legacyMemRecord (d : List (List (String × String)))
    (h : List (String × String)) : List (List (String × String)) :=
  if h ∈ d then d else dequePush FAILED_TAP_HASHES_MAXLEN d h

/-- Action routing and execution of the legacy loop (section 3 of
`task_manager.py::run_task_loop`, lines 351-494), run on the state after
the observe/stagnation/reason phases: the tap guardrail/memory gate (a
block only records a failed result and forces a re-plan, leaving the
failure counter alone), dispatch of executable actions (failure
increments the counter and, for taps, records the stable hash; success
resets the counter), the local `wait`, the unconditional `completed` of
`done`, the ask-once `request_clarification`, the unknown-action failure,
and the post-action consecutive-failure check. -/
def legacyActOn (s2 : LegacyLoopState) (d : LegacyDecision) :
    LegacyLoopState :=
  match d with
  | .tap sel cs =>
    match legacyTapGate s2.failedTapHashes sel with
    | .blockedGuardrail => { s2 with lastSuccess := some false }
    | .blockedMemory => { s2 with lastSuccess := some false }
    | .dispatch =>
      if cs then
        legacyAfterAct { s2 with
          consecutiveFailures := 0
          lastSuccess := some true }
      else
        legacyAfterAct { s2 with
          consecutiveFailures := s2.consecutiveFailures + 1
          failedTapHashes :=
            legacyMemRecord s2.failedTapHashes (_selector_hash sel)
          lastSuccess := some false }
  | .exec _ cs =>
    if cs then
      legacyAfterAct { s2 with
        consecutiveFailures := 0
        lastSuccess := some true }
    else
      legacyAfterAct { s2 with
        consecutiveFailures := s2.consecutiveFailures + 1
        lastSuccess := some false }
  | .waitD =>
    legacyAfterAct { s2 with
      consecutiveFailures := 0
      lastSuccess := some true }
  | .doneD _ => { s2 with finalStatus := some "completed" }
  | .clarifyD valid =>
    if valid then
      { s2 with
        lastSuccess := some false
        finalStatus := some "failed_clarification_needed" }
    else
      legacyAfterAct { s2 with
        consecutiveFailures := s2.consecutiveFailures + 1
        lastSuccess := some false }
  | .unknownA _ =>
    legacyAfterAct { s2 with
      consecutiveFailures := s2.consecutiveFailures + 1
      lastSuccess := some false }

/-- One full step of the legacy loop (`task_manager.py::run_task_loop`):
screenshot failure warns, increments the consecutive-failure counter and
either ends the task `failed_max_failures` at the threshold or continues
without acting; then the stagnation check on the observation hash (at
`NO_STATE_CHANGE_LIMIT` unchanged steps the task ends `failed_stuck`),
the update of `last_state_hash`, the CoreAgent call (a failure counts
like a screenshot failure), and the action phase `legacyActOn`. -/
def legacyStep (s : LegacyLoopState) (i : LegacyStepInput) :
    LegacyLoopState :=
  if s.finalStatus.isSome then s
  else
    let s1 := { s with stepsTaken := s.stepsTaken + 1 }
    if i.screenshotOk = false then
      let c := s1.consecutiveFailures + 1
      if MAX_CONSECUTIVE_FAILURES ≤ c then
        { s1 with
          consecutiveFailures := c
          finalStatus := some "failed_max_failures" }
      else { s1 with consecutiveFailures := c }
    else
      let same := s1.lastStateHash = some i.obsHash
      let n := if same then s1.noStateChangeCount + 1 else 0
      if same ∧ NO_STATE_CHANGE_LIMIT ≤ n then
        { s1 with
          noStateChangeCount := n
          finalStatus := some "failed_stuck" }
      else
        let s2 := { s1 with
          noStateChangeCount := n
          lastStateHash := some i.obsHash }
        if i.agentOk = false then
          let c := s2.consecutiveFailures + 1
          if MAX_CONSECUTIVE_FAILURES ≤ c then
            { s2 with
              consecutiveFailures := c
              finalStatus := some "failed_max_failures" }
          else { s2 with consecutiveFailures := c }
        else legacyActOn s2 i.decision

/-- Initial Task State of the legacy loop. -/
def legacyInit : LegacyLoopState :=
  { stepsTaken := 0, consecutiveFailures := 0, noStateChangeCount := 0,
    lastStateHash := none, failedTapHashes := [], lastSuccess := none,
    finalStatus := none }

/-- `while steps_taken < MAX_STEPS` with `return` on any terminal
status. -/
def legacyLoopGo : List LegacyStepInput → LegacyLoopState → LegacyLoopState
  | [], s => s
  | i :: rest, s =>
    if s.finalStatus.isSome ∨ LEGACY_MAX_STEPS ≤ s.stepsTaken then s
    else legacyLoopGo rest (legacyStep s i)

/-- A whole legacy-loop run over a scripted environment. -/
def legacyRun (inputs : List LegacyStepInput) : LegacyLoopState :=
  legacyLoopGo inputs legacyInit

/-- Post-loop status of the legacy loop: falling out of the `while`
yields `max_steps_reached`. -/
def legacyFinalStatus (s : LegacyLoopState) : String :=
  match s.finalStatus with
  | some st => st
  | none => "max_steps_reached"

/-! ## Transport lemmas -/

lemma pmLookup_append_self (m : PendingMap) (cid : String) (v : FutureState)
    (hm : pmLookup m cid = none) : pmLookup (m ++ [(cid, v)]) cid = some v := by
  induction m with
  | nil => simp [pmLookup]
  | cons kv rest ih =>
    obtain ⟨k, w⟩ := kv
    by_cases h : k = cid
    · simp [pmLookup, h] at hm
    · simp only [pmLookup, h, if_false, List.cons_append] at hm ⊢
      exact ih hm

lemma pmPop_append_self (m : PendingMap) (cid : String) (v : FutureState)
    (hm : pmLookup m cid = none) : pmPop (m ++ [(cid, v)]) cid = m := by
  induction m with
  | nil => simp [pmPop]
  | cons kv rest ih =>
    obtain ⟨k, w⟩ := kv
    by_cases h : k = cid
    · simp [pmLookup, h] at hm
    · simp only [pmLookup, h, if_false] at hm
      simp only [List.cons_append, pmPop, h, if_false]
      exact congrArg (fun l => (k, w) :: l) (ih hm)

lemma pmCount_append (m1 m2 : PendingMap) (cid : String) :
    pmCount (m1 ++ m2) cid = pmCount m1 cid + pmCount m2 cid := by
  simp [pmCount, List.filter_append]

lemma pmLookup_none_iff_count (m : PendingMap) (cid : String) :
    pmLookup m cid = none ↔ pmCount m cid = 0 := by
  induction m with
  | nil => simp [pmLookup, pmCount]
  | cons kv rest ih =>
    obtain ⟨k, w⟩ := kv
    by_cases h : k = cid
    · simp [pmLookup, pmCount, h]
    · simp [pmLookup, pmCount, h] at ih ⊢
      exact ih

lemma pmCount_pop_succ (m : PendingMap) (cid : String) (v : FutureState)
    (h : pmLookup m cid = some v) :
    pmCount (pmPop m cid) cid + 1 = pmCount m cid := by
  induction m with
  | nil => simp [pmLookup] at h
  | cons kv rest ih =>
    obtain ⟨k, w⟩ := kv
    by_cases hk : k = cid
    · simp [pmLookup, hk] at h
      simp [pmPop, pmCount, hk]
    · simp only [pmLookup, hk, if_false] at h
      simp only [pmPop, hk, if_false]
      simp [pmCount, hk] at ih ⊢
      exact ih h

lemma pmLookup_pop_none (m : PendingMap) (cid : String) (v : FutureState)
    (h : pmLookup m cid = some v) (hc : pmCount m cid ≤ 1) :
    pmLookup (pmPop m cid) cid = none := by
  rw [pmLookup_none_iff_count]
  have h1 := pmCount_pop_succ m cid v h
  omega

/-- Invariant of one call with correlation id `cid`: while the caller is
suspended its entry is registered (pending, exactly once); once the call
returned, no entry for `cid` remains. -/
def callInv (cid : String) (s : CallState) : Prop :=
  (s.outcome = none → pmLookup s.pmap cid = some .pending) ∧
  pmCount s.pmap cid ≤ 1 ∧
  (s.outcome ≠ none → pmLookup s.pmap cid = none)

lemma callInv_init (cid : String) (m0 : PendingMap)
    (hm : pmLookup m0 cid = none) : callInv cid (initCall cid m0) := by
  refine ⟨fun _ => ?_, ?_, fun hBad => absurd rfl hBad⟩
  · exact pmLookup_append_self m0 cid .pending hm
  · have h0 : pmCount m0 cid = 0 := (pmLookup_none_iff_count m0 cid).mp hm
    rw [initCall]
    simp only [pmCount_append, h0]
    simp [pmCount]

lemma callInv_step (cid : String) (s : CallState) (e : TransportEvent)
    (h : callInv cid s) : callInv cid (stepCall cid s e) := by
  obtain ⟨hPend, hCnt, hGone⟩ := h
  cases e with
  | resolveEv p =>
    cases ho : s.outcome with
    | none =>
      have hL : pmLookup s.pmap cid = some .pending := hPend ho
      have hGoal :
          stepCall cid s (.resolveEv p) =
            { pmap := pmPop s.pmap cid, delivered := s.delivered ++ [p],
              outcome := some (some p) } := by
        simp [stepCall, resolve_pending_request, hL, ho]
      rw [hGoal]
      refine ⟨fun hc => by simp at hc, ?_, fun _ => ?_⟩
      · have := pmCount_pop_succ s.pmap cid .pending hL
        simp only
        omega
      · exact pmLookup_pop_none s.pmap cid .pending hL hCnt
    | some o =>
      have hL : pmLookup s.pmap cid = none := hGone (by simp [ho])
      have hGoal : stepCall cid s (.resolveEv p) = { s with pmap := s.pmap } := by
        simp [stepCall, resolve_pending_request, hL]
      rw [hGoal]
      exact ⟨hPend, hCnt, hGone⟩
  | timeoutEv =>
    cases ho : s.outcome with
    | none =>
      have hL : pmLookup s.pmap cid = some .pending := hPend ho
      have hGoal :
          stepCall cid s .timeoutEv =
            { pmap := pmPop s.pmap cid, delivered := s.delivered,
              outcome := some none } := by
        simp [stepCall, ho]
      rw [hGoal]
      refine ⟨fun hc => by simp at hc, ?_, fun _ => ?_⟩
      · have := pmCount_pop_succ s.pmap cid .pending hL
        simp only
        omega
      · exact pmLookup_pop_none s.pmap cid .pending hL hCnt
    | some o =>
      have hGoal : stepCall cid s .timeoutEv = { s with outcome := some o } := by
        simp [stepCall, ho]
      rw [hGoal]
      refine ⟨fun hc => by simp at hc, hCnt, fun _ => hGone (by simp [ho])⟩
  | errorEv =>
    cases ho : s.outcome with
    | none =>
      have hL : pmLookup s.pmap cid = some .pending := hPend ho
      have hGoal :
          stepCall cid s .errorEv =
            { pmap := pmPop s.pmap cid, delivered := s.delivered,
              outcome := some none } := by
        simp [stepCall, ho]
      rw [hGoal]
      refine ⟨fun hc => by simp at hc, ?_, fun _ => ?_⟩
      · have := pmCount_pop_succ s.pmap cid .pending hL
        simp only
        omega
      · exact pmLookup_pop_none s.pmap cid .pending hL hCnt
    | some o =>
      have hGoal : stepCall cid s .errorEv = { s with outcome := some o } := by
        simp [stepCall, ho]
      rw [hGoal]
      refine ⟨fun hc => by simp at hc, hCnt, fun _ => hGone (by simp [ho])⟩

lemma callInv_foldl (cid : String) (events : List TransportEvent)
    (s : CallState) (h : callInv cid s) :
    callInv cid (events.foldl (stepCall cid) s) := by
  induction events generalizing s with
  | nil => exact h
  | cons e rest ih => exact ih _ (callInv_step cid s e h)

lemma callInv_run (cid : String) (m0 : PendingMap)
    (hm : pmLookup m0 cid = none) (events : List TransportEvent) :
    callInv cid (runCall cid m0 events) :=
  callInv_foldl cid events _ (callInv_init cid m0 hm)

lemma runCall_resolve_first (cid : String) (m0 : PendingMap) (p : WsMessage)
    (hm : pmLookup m0 cid = none) :
    runCall cid m0 [.resolveEv p] =
      { pmap := m0, delivered := [p], outcome := some (some p) } := by
  simp [runCall, stepCall, initCall, resolve_pending_request,
    pmLookup_append_self m0 cid .pending hm,
    pmPop_append_self m0 cid .pending hm]

lemma stepCall_timeout_first (cid : String) (m0 : PendingMap)
    (hm : pmLookup m0 cid = none) :
    stepCall cid (initCall cid m0) .timeoutEv =
      { pmap := m0, delivered := [], outcome := some none } := by
  simp [stepCall, initCall, pmPop_append_self m0 cid .pending hm]

lemma foldl_timeout_fixed (cid : String) (m : PendingMap)
    (d : List WsMessage) (k : Nat) :
    List.foldl (stepCall cid)
      { pmap := m, delivered := d, outcome := some none }
      (List.replicate k .timeoutEv) =
      { pmap := m, delivered := d, outcome := some none } := by
  induction k with
  | zero => rfl
  | succ k ih =>
    rw [List.replicate_succ, List.foldl_cons]
    have hstep : stepCall cid
        { pmap := m, delivered := d, outcome := some none } .timeoutEv =
        { pmap := m, delivered := d, outcome := some none } := rfl
    rw [hstep, ih]

lemma runCall_timeouts_then_resolve (cid : String) (m0 : PendingMap)
    (p : WsMessage) (k : Nat) (hm : pmLookup m0 cid = none) :
    runCall cid m0 (List.replicate (k + 1) .timeoutEv ++ [.resolveEv p]) =
      { pmap := m0, delivered := [], outcome := some none } := by
  have h1 : List.replicate (k + 1) TransportEvent.timeoutEv ++
      [TransportEvent.resolveEv p] =
      TransportEvent.timeoutEv ::
        (List.replicate k TransportEvent.timeoutEv ++
          [TransportEvent.resolveEv p]) := by
    rw [List.replicate_succ, List.cons_append]
  rw [runCall, h1, List.foldl_cons, stepCall_timeout_first cid m0 hm,
    List.foldl_append, foldl_timeout_fixed]
  simp [stepCall, resolve_pending_request, hm]

/-- C1: after a `send_request_and_wait_for_response` call returns —
whatever the outcome (resolution, timeout, or internal error while
waiting) — no Pending Request for its correlation id remains registered;
and on a trace of `n` timeouts followed by one resolve on the same id,
whenever the resolve successfully fulfills the waiter (some result was
delivered), exactly one non-timeout result is delivered to the waiter. -/
theorem transport_call_cleanup_and_exactly_once
    (cid : String) (m0 : PendingMap) (hm : pmLookup m0 cid = none)
    (n : Nat) (p : WsMessage) :
    (∀ events : List TransportEvent,
      (runCall cid m0 events).outcome ≠ none →
        pmLookup (runCall cid m0 events).pmap cid = none) ∧
    (runCall cid m0
        (List.replicate n .timeoutEv ++ [.resolveEv p])).outcome ≠ none ∧
    pmLookup
      (runCall cid m0
        (List.replicate n .timeoutEv ++ [.resolveEv p])).pmap cid = none ∧
    ((runCall cid m0
        (List.replicate n .timeoutEv ++ [.resolveEv p])).delivered ≠ [] →
      (runCall cid m0
        (List.replicate n .timeoutEv ++ [.resolveEv p])).delivered = [p]) := by
  have hGen : ∀ events : List TransportEvent,
      (runCall cid m0 events).outcome ≠ none →
        pmLookup (runCall cid m0 events).pmap cid = none := by
    intro events ho
    exact (callInv_run cid m0 hm events).2.2 ho
  refine ⟨hGen, ?_, ?_, ?_⟩
  · cases n with
    | zero =>
      rw [List.replicate_zero, List.nil_append, runCall_resolve_first cid m0 p hm]
      simp
    | succ k =>
      rw [runCall_timeouts_then_resolve cid m0 p k hm]
      simp
  · cases n with
    | zero =>
      rw [List.replicate_zero, List.nil_append, runCall_resolve_first cid m0 p hm]
      exact hm
    | succ k =>
      rw [runCall_timeouts_then_resolve cid m0 p k hm]
      exact hm
  · cases n with
    | zero =>
      rw [List.replicate_zero, List.nil_append, runCall_resolve_first cid m0 p hm]
      intro _
      rfl
    | succ k =>
      rw [runCall_timeouts_then_resolve cid m0 p k hm]
      intro hne
      exact absurd rfl hne

/-- A concrete response envelope used by witnesses. -/
def wMsg : WsMessage :=
  { msgType := some "screenshot_result", correlation_id := some "c",
    content := "img-bytes" }

/-- Witness for C1: a fresh id, an empty prior map and a zero-timeout
trace; the call returns, the map is clean and exactly the one payload was
delivered. -/
theorem transport_call_cleanup_witness :
    pmLookup
      (runCall "c" [] (List.replicate 0 .timeoutEv ++ [.resolveEv wMsg])).pmap
      "c" = none ∧
    (runCall "c" [] (List.replicate 0 .timeoutEv ++ [.resolveEv wMsg])).delivered
      = [wMsg] := by
  have h := transport_call_cleanup_and_exactly_once "c" [] rfl 0 wMsg
  exact ⟨h.2.2.1, h.2.2.2 (by decide)⟩

/-- C2: `resolve_pending_request` on an absent correlation id (unknown,
already resolved, or already timed out — resolution and timeout both
remove the entry) never raises (it is a total function), leaves the map
untouched and fulfills no waiter; on a present, unresolved id it
atomically removes the entry and fulfills its waiter with the payload. -/
theorem resolve_silent_noop_or_fulfill
    (m : PendingMap) (cid : String) (p : WsMessage) :
    (pmLookup m cid = none →
      resolve_pending_request m cid p = { map := m, fulfilled := none }) ∧
    (pmLookup m cid = some .pending →
      resolve_pending_request m cid p =
        { map := pmPop m cid, fulfilled := some p } ∧
      (pmCount m cid ≤ 1 → pmLookup (pmPop m cid) cid = none)) := by
  constructor
  · intro h
    simp [resolve_pending_request, h]
  · intro h
    refine ⟨by simp [resolve_pending_request, h], fun hc => ?_⟩
    exact pmLookup_pop_none m cid .pending h hc

/-- Witness for C2: unknown id on the empty map is a no-op; a present
pending id is removed and fulfilled. -/
theorem resolve_silent_noop_witness :
    resolve_pending_request [] "c" wMsg = { map := [], fulfilled := none } ∧
    resolve_pending_request [("c", .pending)] "c" wMsg =
      { map := [], fulfilled := some wMsg } := by
  refine ⟨(resolve_silent_noop_or_fulfill [] "c" wMsg).1 rfl, ?_⟩
  have h := (resolve_silent_noop_or_fulfill [("c", .pending)] "c" wMsg).2 rfl
  exact h.1

/-- C9: every inbound envelope with a (truthy) correlation id is routed
to `resolve_pending_request`, which — when the id is pending — fulfills
the waiter with the whole envelope, whatever its `type` field; the
expected response type recorded for the request is never consulted:
`send_request_and_wait_for_response` is literally constant in it. -/
theorem receiver_routes_by_correlation_only (msg : WsMessage) (cid : String)
    (hc : msg.correlation_id = some cid) (hne : cid ≠ "") :
    receiverRoute msg = .resolveFuture cid msg ∧
    (∀ m : PendingMap, pmLookup m cid = some .pending →
      (resolve_pending_request m cid msg).fulfilled = some msg) ∧
    (∀ ert1 ert2 : String, ∀ connected : Bool, ∀ m0 : PendingMap,
      ∀ events : List TransportEvent,
      send_request_and_wait_for_response ert1 connected cid m0 events =
        send_request_and_wait_for_response ert2 connected cid m0 events) := by
  refine ⟨?_, ?_, ?_⟩
  · simp [receiverRoute, hc, hne]
  · intro m hmem
    simp [resolve_pending_request, hmem]
  · intro _ _ _ _ _
    rfl

/-- An envelope whose type field is not the expected response kind of
any request, used by the C9 witness. -/
def wWrongKind : WsMessage :=
  { msgType := some "interactive_nodes_result", correlation_id := some "c",
    content := "nodes" }

/-- Witness for C9: an envelope of the wrong kind with a matching
correlation id is still routed to the transport and still fulfills the
pending waiter. -/
theorem receiver_routes_witness :
    receiverRoute wWrongKind = .resolveFuture "c" wWrongKind ∧
    (resolve_pending_request [("c", .pending)] "c" wWrongKind).fulfilled =
      some wWrongKind := by
  have h := receiver_routes_by_correlation_only wWrongKind "c" rfl (by decide)
  exact ⟨h.1, h.2.1 [("c", .pending)] rfl⟩

/-- C10: `send_personal_message` never lets an exception escape — every
failure of the underlying serialize-and-send is caught by one of its
`except` clauses — and a session without a registered connection is a
logged no-op. -/
theorem send_personal_message_never_raises (env : SendEnv) :
    (∃ o : SendOutcome, send_personal_message env = .ok o) ∧
    (env.connected = false →
      send_personal_message env = .ok .droppedNoConnection) := by
  obtain ⟨c, f⟩ := env
  cases c
  · exact ⟨⟨.droppedNoConnection, rfl⟩, fun _ => rfl⟩
  · refine ⟨?_, fun h => by simp at h⟩
    cases f with
    | none => exact ⟨.sentOk, rfl⟩
    | some e =>
      cases e
      · exact ⟨.caughtDisconnect, rfl⟩
      · exact ⟨.caughtRuntimeClosed, rfl⟩
      · exact ⟨.caughtRuntimeOther, rfl⟩
      · exact ⟨.caughtOther, rfl⟩
      · exact ⟨.caughtOther, rfl⟩

/-- Witness for C10: a disconnect raised mid-send is swallowed, and a
send to an unknown session is a no-op. -/
theorem send_personal_message_witness :
    send_personal_message { connected := true, failure := some .wsDisconnect }
      = .ok .caughtDisconnect ∧
    send_personal_message { connected := false, failure := none }
      = .ok .droppedNoConnection := by
  refine ⟨?_, ?_⟩
  · have h := send_personal_message_never_raises
      { connected := true, failure := some .wsDisconnect }
    obtain ⟨⟨o, ho⟩, _⟩ := h
    exact rfl
  · exact (send_personal_message_never_raises
      { connected := false, failure := none }).2 rfl

/-! ## Task-loop lemmas -/

lemma legacyStep_screenshot_fail (s : LegacyLoopState) (i : LegacyStepInput)
    (hs : s.finalStatus = none) (hshot : i.screenshotOk = false) :
    legacyStep s i =
      if MAX_CONSECUTIVE_FAILURES ≤ s.consecutiveFailures + 1 then
        { s with
          stepsTaken := s.stepsTaken + 1
          consecutiveFailures := s.consecutiveFailures + 1
          finalStatus := some "failed_max_failures" }
      else
        { s with
          stepsTaken := s.stepsTaken + 1
          consecutiveFailures := s.consecutiveFailures + 1 } := by
  simp [legacyStep, hs, hshot]

lemma androidStep_screenshot_fail (t : AndroidLoopState) (j : AndroidStepInput)
    (ht : t.finalStatus = none) (hjshot : j.screenshotOk = false) :
    androidStep t j =
      { t with
        stepsTaken := t.stepsTaken + 1
        finalStatus := some "failed" } := by
  simp [androidStep, ht, hjshot]

/-- A step input whose screen capture fails, used by counterexamples and
witnesses. -/
def wObsFail : AndroidStepInput :=
  { screenshotOk := false, obsHash := 0, agentOk := true,
    decision := .noAction false }

/-- C3 counterexample: in the android loop
(`android_use_agent/task_manager.py`, lines 299-309) a single failed
screen capture terminates the task at once with status `failed`: the
consecutive-failure counter stays at 0, far below the threshold, and the
loop does not continue to a next step. -/
theorem android_observe_failure_terminates_counterexample :
    (androidStep androidInit wObsFail).finalStatus = some "failed" ∧
    (androidStep androidInit wObsFail).consecutiveFailures = 0 ∧
    0 + 1 < MAX_CONSECUTIVE_ACTION_FAILURES := by
  refine ⟨?_, ?_, ?_⟩
  · rfl
  · rfl
  · decide

/-- C3 amended: in the legacy loop (`task_manager.py`) an observation
failure increments the consecutive-failure counter, warns and continues
without acting (no dispatch, action result and failure memory untouched),
terminating `failed_max_failures` only once the threshold is reached; in
the android loop a single observation failure terminates the task
immediately with status `failed`, without touching the counter. -/
theorem observe_failure_policy
    (s : LegacyLoopState) (i : LegacyStepInput)
    (hs : s.finalStatus = none) (hshot : i.screenshotOk = false)
    (t : AndroidLoopState) (j : AndroidStepInput)
    (ht : t.finalStatus = none) (hjshot : j.screenshotOk = false) :
    (legacyStep s i).consecutiveFailures = s.consecutiveFailures + 1 ∧
    (s.consecutiveFailures + 1 < MAX_CONSECUTIVE_FAILURES →
      (legacyStep s i).finalStatus = none) ∧
    (MAX_CONSECUTIVE_FAILURES ≤ s.consecutiveFailures + 1 →
      (legacyStep s i).finalStatus = some "failed_max_failures") ∧
    (legacyStep s i).lastSuccess = s.lastSuccess ∧
    (legacyStep s i).failedTapHashes = s.failedTapHashes ∧
    (androidStep t j).finalStatus = some "failed" ∧
    (androidStep t j).consecutiveFailures = t.consecutiveFailures := by
  rw [legacyStep_screenshot_fail s i hs hshot,
    androidStep_screenshot_fail t j ht hjshot]
  by_cases hth : MAX_CONSECUTIVE_FAILURES ≤ s.consecutiveFailures + 1
  · rw [if_pos hth]
    exact ⟨rfl, fun hlt => absurd hth (by omega), fun _ => rfl, rfl, rfl,
      rfl, rfl⟩
  · rw [if_neg hth]
    exact ⟨rfl, fun _ => hs, fun hge => absurd hge hth, rfl, rfl, rfl, rfl⟩

/-- Witness for C3 (amended): from fresh states, a failed capture leaves
the legacy loop running with counter 1 and ends the android loop with
status `failed`. -/
theorem observe_failure_policy_witness :
    (legacyStep legacyInit
      { screenshotOk := false, obsHash := 0, agentOk := true,
        decision := .waitD }).finalStatus = none ∧
    (legacyStep legacyInit
      { screenshotOk := false, obsHash := 0, agentOk := true,
        decision := .waitD }).consecutiveFailures = 1 ∧
    (androidStep androidInit wObsFail).finalStatus = some "failed" := by
  have h := observe_failure_policy legacyInit
    { screenshotOk := false, obsHash := 0, agentOk := true,
      decision := .waitD } rfl rfl androidInit wObsFail rfl rfl
  exact ⟨h.2.1 (by decide), h.1, h.2.2.2.2.2.1⟩

/-- A clickable target descriptor used by counterexamples and
witnesses. -/
def wSelClickable : Selector :=
  { view_id := some "button_send", text := some "Send", content_desc := none,
    class_name := some "android.widget.Button",
    bounds := some { left := 0, top := 0, right := 100, bottom := 40 },
    is_clickable := some true, is_long_clickable := some false }

/-- The same element after the layout moved: identical identity fields,
different bounds. -/
def wSelRelocated : Selector :=
  { wSelClickable with
    bounds := some { left := 0, top := 400, right := 100, bottom := 440 } }

/-- C4 counterexample: in the android loop the failure memory stores
whole selector dictionaries and compares them for equality, so after
`wSelClickable` is recorded as failed, the relocated-but-otherwise
identical `wSelRelocated` (same stable hash) is NOT rejected by the
memory lookup: the gate dispatches it over the transport. -/
theorem android_memory_misses_relocated_counterexample :
    _selector_hash wSelClickable = _selector_hash wSelRelocated ∧
    wSelClickable ≠ wSelRelocated ∧
    androidTapGate [wSelClickable] wSelRelocated = .dispatch := by
  refine ⟨rfl, by decide, rfl⟩

/-- C4 amended: `_selector_hash` (legacy loop) is computed from the
identity fields `view_id`, `text`, `content_desc` only, so it ignores
geometry and capability flags and a relocated-but-identical element is
still recognized there; in the legacy loop a clickable target whose
stable hash is recorded is rejected by the memory lookup alone, before
any transport call, and in the android loop a recorded selector is
rejected by memory only on exact dictionary equality (a selector not
literally in the memory is never memory-rejected); both memories are
bounded FIFO deques whose append at capacity evicts the oldest entry.
(Recording differs per loop: the legacy loop records only dispatch
failures, the android loop records guardrail rejections and dispatch
failures.) -/
theorem failure_memory_policy (s1 s2 : Selector)
    (hv : s1.view_id = s2.view_id) (htx : s1.text = s2.text)
    (hd : s1.content_desc = s2.content_desc) :
    _selector_hash s1 = _selector_hash s2 ∧
    (∀ (hashes : List (List (String × String))) (sel : Selector),
      (flagTruthy sel.is_clickable = true ∨
        flagTruthy sel.is_long_clickable = true) →
      _selector_hash sel ∈ hashes →
      legacyTapGate hashes sel = .blockedMemory) ∧
    (∀ (mem : List Selector) (sel : Selector), sel ∈ mem →
      androidTapGate mem sel = .blockedMemory) ∧
    (∀ (mem : List Selector) (sel : Selector), sel ∉ mem →
      androidTapGate mem sel ≠ .blockedMemory) ∧
    (∀ (d : List (List (String × String))) (h : List (String × String)),
      d.length = FAILED_TAP_HASHES_MAXLEN →
      dequePush FAILED_TAP_HASHES_MAXLEN d h = d.tail ++ [h]) := by
  refine ⟨?_, ?_, ?_, ?_, ?_⟩
  · simp only [_selector_hash, hv, htx, hd]
  · intro hashes sel hflag hmem
    rcases hflag with h | h <;>
      simp [legacyTapGate, _validate_clickable, h, hmem]
  · intro mem sel h
    simp [androidTapGate, h]
  · intro mem sel h
    simp only [androidTapGate, if_neg h]
    cases hr : _reject_non_clickable sel <;> simp [hr]
  · intro d hsh hlen
    cases d with
    | nil => simp [FAILED_TAP_HASHES_MAXLEN] at hlen
    | cons x xs =>
      have hx : xs.length + 1 = FAILED_TAP_HASHES_MAXLEN := by
        simpa using hlen
      simp only [dequePush, List.cons_append, List.length_cons,
        List.length_append, List.length_singleton, List.tail_cons]
      rw [if_pos (by omega)]
      have h2 : xs.length + (0 + 1) + 1 - FAILED_TAP_HASHES_MAXLEN = 1 := by
        omega
      simp only [List.length_nil]
      rw [show xs.length + 1 + 1 - FAILED_TAP_HASHES_MAXLEN = 1 by omega]
      simp

/-- Witness for C4 (amended): the relocated selector keeps the stable
hash; a recorded hash memory-blocks a clickable tap in the legacy loop
and a recorded selector memory-blocks the identical tap in the android
loop; a full deque evicts its head on push. -/
theorem failure_memory_policy_witness :
    _selector_hash wSelClickable = _selector_hash wSelRelocated ∧
    legacyTapGate [_selector_hash wSelClickable] wSelClickable =
      .blockedMemory ∧
    androidTapGate [wSelRelocated] wSelRelocated = .blockedMemory := by
  have h := failure_memory_policy wSelClickable wSelRelocated rfl rfl rfl
  refine ⟨h.1, ?_, ?_⟩
  · exact h.2.1 [_selector_hash wSelClickable] wSelClickable
      (Or.inl (by decide)) (by simp)
  · exact h.2.2.1 [wSelRelocated] wSelRelocated (by simp)

/-- The stagnation-termination condition of the legacy loop for the
coming step: unchanged hash and counter at the limit. -/
def legacyStagnationFires (s : LegacyLoopState) (i : LegacyStepInput) :
    Prop :=
  s.lastStateHash = some i.obsHash ∧
    NO_STATE_CHANGE_LIMIT ≤ s.noStateChangeCount + 1

lemma legacyStep_act (s : LegacyLoopState) (i : LegacyStepInput)
    (hs : s.finalStatus = none) (hshot : i.screenshotOk = true)
    (hag : i.agentOk = true) (hng : ¬legacyStagnationFires s i) :
    legacyStep s i =
      legacyActOn
        { s with
          stepsTaken := s.stepsTaken + 1
          noStateChangeCount :=
            if s.lastStateHash = some i.obsHash then
              s.noStateChangeCount + 1
            else 0
          lastStateHash := some i.obsHash }
        i.decision := by
  unfold legacyStep
  by_cases hsame : s.lastStateHash = some i.obsHash
  · have hlim : ¬NO_STATE_CHANGE_LIMIT ≤ s.noStateChangeCount + 1 :=
      fun hx => hng ⟨hsame, hx⟩
    simp [hs, hshot, hag, hsame, hlim]
  · simp [hs, hshot, hag, hsame, NO_STATE_CHANGE_LIMIT]

/-- C5: a `tap_by_selector` decision whose descriptor has neither the
clickable nor the long-clickable flag truthy (absent flags included) is
rejected before dispatch in both loops, whatever the other fields, the
memory contents and the rest of the state: the legacy gate always
returns a guardrail block, the android gate never dispatches (and is a
guardrail block whenever the memory does not already hold the selector),
the android act phase dispatches nothing and marks the step failed, the
legacy step records a failed action result and keeps running, and the
android step counts one step failure. -/
theorem non_clickable_tap_rejected (sel : Selector)
    (hc : flagTruthy sel.is_clickable = false)
    (hl : flagTruthy sel.is_long_clickable = false) :
    (∀ hashes : List (List (String × String)),
      legacyTapGate hashes sel = .blockedGuardrail) ∧
    (∀ mem : List Selector, androidTapGate mem sel ≠ .dispatch) ∧
    (∀ mem : List Selector, sel ∉ mem →
      androidTapGate mem sel = .blockedGuardrail) ∧
    (∀ (mem : List Selector) (cs : Bool),
      androidActPhase mem (.tap sel cs) =
        .acted false false false (androidMemAfterGate mem sel)
          (some false) none) ∧
    (∀ (s : LegacyLoopState) (i : LegacyStepInput) (cs : Bool),
      s.finalStatus = none → i.screenshotOk = true → i.agentOk = true →
      ¬legacyStagnationFires s i → i.decision = .tap sel cs →
      (legacyStep s i).lastSuccess = some false ∧
      (legacyStep s i).finalStatus = none ∧
      (legacyStep s i).consecutiveFailures = s.consecutiveFailures ∧
      (legacyStep s i).failedTapHashes = s.failedTapHashes) ∧
    (∀ (t : AndroidLoopState) (j : AndroidStepInput) (cs : Bool),
      t.finalStatus = none → j.screenshotOk = true → j.agentOk = true →
      j.decision = .tap sel cs →
      (androidStep t j).lastSuccess = some false ∧
      (androidStep t j).consecutiveFailures = t.consecutiveFailures + 1) := by
  have hval : _validate_clickable sel =
      .error "Attempt to tap non-clickable selector" := by
    simp [_validate_clickable, hc, hl]
  have hrej : _reject_non_clickable sel =
      .error "Blocked tap on NON-actionable node" := by
    simp [_reject_non_clickable, hc, hl]
  have hgateL : ∀ hashes : List (List (String × String)),
      legacyTapGate hashes sel = .blockedGuardrail := by
    intro hashes
    simp [legacyTapGate, hval]
  have hgateA : ∀ mem : List Selector,
      androidTapGate mem sel =
        if sel ∈ mem then .blockedMemory else .blockedGuardrail := by
    intro mem
    by_cases hmem : sel ∈ mem <;> simp [androidTapGate, hmem, hrej]
  have hact : ∀ (mem : List Selector) (cs : Bool),
      androidActPhase mem (.tap sel cs) =
        .acted false false false (androidMemAfterGate mem sel)
          (some false) none := by
    intro mem cs
    by_cases hmem : sel ∈ mem <;>
      simp [androidActPhase, androidMemAfterGate, hgateA, hmem]
  refine ⟨hgateL, ?_, ?_, hact, ?_, ?_⟩
  · intro mem
    rw [hgateA]
    by_cases hmem : sel ∈ mem <;> simp [hmem]
  · intro mem hmem
    rw [hgateA, if_neg hmem]
  · intro s i cs hs hshot hag hng hdec
    rw [legacyStep_act s i hs hshot hag hng, hdec]
    simp [legacyActOn, hgateL, hs]
  · intro t j cs ht hjshot hjag hjdec
    have hstep : androidStep t j =
        androidCounterUpdate
          { t with
            stepsTaken := t.stepsTaken + 1
            mem := androidMemAfterGate t.mem sel
            lastSuccess := some false }
          j.obsHash false false none := by
      simp [androidStep, ht, hjshot, hjag, hjdec, hact]
    rw [hstep]
    by_cases hth : MAX_CONSECUTIVE_ACTION_FAILURES ≤
        t.consecutiveFailures + 1 <;>
      simp [androidCounterUpdate, androidApplyPre, hth]

/-- A descriptor with no interactive-capability flags at all, used by
the C5 witness. -/
def wSelPlain : Selector :=
  { view_id := some "banner_image", text := some "Sale", content_desc := none,
    class_name := some "android.widget.ImageView",
    bounds := some { left := 5, top := 5, right := 200, bottom := 60 },
    is_clickable := none, is_long_clickable := none }

/-- Witness for C5: the capability-free descriptor is guardrail-blocked
in both loops and the android act phase dispatches nothing. -/
theorem non_clickable_tap_rejected_witness :
    legacyTapGate [] wSelPlain = .blockedGuardrail ∧
    androidTapGate [] wSelPlain = .blockedGuardrail ∧
    androidActPhase [] (.tap wSelPlain true) =
      .acted false false false (androidMemAfterGate [] wSelPlain)
        (some false) none := by
  have h := non_clickable_tap_rejected wSelPlain rfl rfl
  exact ⟨h.1 [], h.2.2.1 [] (by simp), h.2.2.2.1 [] true⟩

lemma legacyAfterAct_noStateChangeCount (s : LegacyLoopState) :
    (legacyAfterAct s).noStateChangeCount = s.noStateChangeCount := by
  unfold legacyAfterAct
  split_ifs <;> rfl

lemma legacyActOn_noStateChangeCount (s2 : LegacyLoopState)
    (d : LegacyDecision) :
    (legacyActOn s2 d).noStateChangeCount = s2.noStateChangeCount := by
  cases d with
  | tap sel cs =>
    cases hg : legacyTapGate s2.failedTapHashes sel with
    | blockedGuardrail => simp [legacyActOn, hg]
    | blockedMemory => simp [legacyActOn, hg]
    | dispatch =>
      cases cs <;> simp [legacyActOn, hg, legacyAfterAct_noStateChangeCount]
  | exec name cs =>
    cases cs <;> simp [legacyActOn, legacyAfterAct_noStateChangeCount]
  | waitD => simp [legacyActOn, legacyAfterAct_noStateChangeCount]
  | doneD b => simp [legacyActOn]
  | clarifyD valid =>
    cases valid <;> simp [legacyActOn, legacyAfterAct_noStateChangeCount]
  | unknownA name =>
    simp [legacyActOn, legacyAfterAct_noStateChangeCount]

/-- A successful, state-preserving legacy step used by the C6
counterexample: the screenshot hash never changes and every dispatched
action succeeds. -/
def wStagInput : LegacyStepInput :=
  { screenshotOk := true, obsHash := 7, agentOk := true,
    decision := .exec "launch_app" true }

/-- C6 counterexample: in the legacy loop the observation hash staying
unchanged for `NO_STATE_CHANGE_LIMIT` consecutive steps — all with
successful dispatch — terminates the task with status `failed_stuck`,
not `failed_no_progress`. -/
theorem legacy_stagnation_status_counterexample :
    (legacyRun (List.replicate 6 wStagInput)).finalStatus =
      some "failed_stuck" ∧
    (legacyRun (List.replicate 6 wStagInput)).finalStatus ≠
      some "failed_no_progress" := by
  exact ⟨rfl, by decide⟩

/-- C6 amended: in the android loop an unchanged observation hash on a
successful step increments the stagnation counter and at
`MAX_STEPS_WITHOUT_STATE_CHANGE` (3) consecutive such steps the task
ends `failed_no_progress`, while a differing hash resets the counter to
zero; in the legacy loop the unchanged-hash counter is incremented
regardless of dispatch success and at `NO_STATE_CHANGE_LIMIT` (5) the
task ends with status `failed_stuck`, a differing hash resetting the
counter to zero. -/
theorem stagnation_policy :
    (∀ (t : AndroidLoopState) (h : Nat) (pre : Option String) (ph : Nat),
      t.prevHash = some ph → ph = h →
      (androidCounterUpdate t h true true pre).stepsWithoutChange =
        t.stepsWithoutChange + 1 ∧
      (MAX_STEPS_WITHOUT_STATE_CHANGE ≤ t.stepsWithoutChange + 1 →
        (androidCounterUpdate t h true true pre).finalStatus =
          some "failed_no_progress")) ∧
    (∀ (t : AndroidLoopState) (h : Nat) (pre : Option String) (ph : Nat),
      t.prevHash = some ph → ph ≠ h →
      (androidCounterUpdate t h true true pre).stepsWithoutChange = 0) ∧
    (∀ (s : LegacyLoopState) (i : LegacyStepInput),
      s.finalStatus = none → i.screenshotOk = true →
      s.lastStateHash = some i.obsHash →
      NO_STATE_CHANGE_LIMIT ≤ s.noStateChangeCount + 1 →
      (legacyStep s i).finalStatus = some "failed_stuck") ∧
    (∀ (s : LegacyLoopState) (i : LegacyStepInput),
      s.finalStatus = none → i.screenshotOk = true →
      s.lastStateHash ≠ some i.obsHash →
      (legacyStep s i).noStateChangeCount = 0) := by
  refine ⟨?_, ?_, ?_, ?_⟩
  · intro t h pre ph hph heq
    subst heq
    by_cases hth : MAX_STEPS_WITHOUT_STATE_CHANGE ≤ t.stepsWithoutChange + 1
    · constructor
      · cases pre <;> simp [androidCounterUpdate, androidApplyPre, hph, hth]
      · intro _
        cases pre <;> simp [androidCounterUpdate, androidApplyPre, hph, hth]
    · constructor
      · cases pre <;> simp [androidCounterUpdate, androidApplyPre, hph, hth]
      · intro hth2
        exact absurd hth2 hth
  · intro t h pre ph hph hne
    have hcond : ¬(ph = h) := hne
    cases pre <;> simp [androidCounterUpdate, androidApplyPre, hph, hcond]
  · intro s i hs hshot hsame hlim
    simp [legacyStep, hs, hshot, hsame, hlim]
  · intro s i hs hshot hdiff
    by_cases hag : i.agentOk = true
    · have hng : ¬legacyStagnationFires s i := fun hx => hdiff hx.1
      rw [legacyStep_act s i hs hshot hag hng]
      rw [legacyActOn_noStateChangeCount]
      simp [hdiff]
    · have hag2 : i.agentOk = false := by
        cases hb : i.agentOk
        · rfl
        · exact absurd hb hag
      by_cases hth : MAX_CONSECUTIVE_FAILURES ≤ s.consecutiveFailures + 1 <;>
        simp [legacyStep, hs, hshot, hag2, hdiff, hth]

/-- Witness for C6 (amended): one step away from the limit, an unchanged
hash ends the android loop `failed_no_progress` and the legacy loop
`failed_stuck`; a differing hash resets both counters. -/
theorem stagnation_policy_witness :
    (androidCounterUpdate
      { androidInit with prevHash := some 9, stepsWithoutChange := 2 }
      9 true true none).finalStatus = some "failed_no_progress" ∧
    (legacyStep
      { legacyInit with lastStateHash := some 7, noStateChangeCount := 4 }
      wStagInput).finalStatus = some "failed_stuck" ∧
    (androidCounterUpdate
      { androidInit with prevHash := some 9, stepsWithoutChange := 2 }
      10 true true none).stepsWithoutChange = 0 ∧
    (legacyStep
      { legacyInit with lastStateHash := some 8, noStateChangeCount := 4 }
      wStagInput).noStateChangeCount = 0 := by
  have h := stagnation_policy
  refine ⟨?_, ?_, ?_, ?_⟩
  · exact (h.1 { androidInit with prevHash := some 9, stepsWithoutChange := 2 }
      9 none 9 rfl rfl).2 (by decide)
  · exact h.2.2.1
      { legacyInit with lastStateHash := some 7, noStateChangeCount := 4 }
      wStagInput rfl rfl rfl (by decide)
  · exact h.2.1 { androidInit with prevHash := some 9, stepsWithoutChange := 2 }
      10 none 9 rfl (by decide)
  · exact h.2.2.2
      { legacyInit with lastStateHash := some 8, noStateChangeCount := 4 }
      wStagInput rfl rfl (by decide)

/-- A legacy-loop step whose screen capture fails, used by the C7
counterexample (the spec scenario: the capture request times out for
three consecutive steps). -/
def wShotFailStep : LegacyStepInput :=
  { screenshotOk := false, obsHash := 0, agentOk := true,
    decision := .waitD }

/-- C7 counterexample: three consecutive step failures terminate the
legacy loop with status `failed_max_failures`, not
`failed_consecutive_errors`. -/
theorem legacy_consecutive_failures_status_counterexample :
    (legacyRun (List.replicate 3 wShotFailStep)).finalStatus =
      some "failed_max_failures" ∧
    (legacyRun (List.replicate 3 wShotFailStep)).stepsTaken = 3 ∧
    (legacyRun (List.replicate 3 wShotFailStep)).finalStatus ≠
      some "failed_consecutive_errors" := by
  exact ⟨rfl, rfl, by decide⟩

/-- C7 amended: in the android loop a failing step increments the
consecutive-failure counter and the third consecutive failure ends the
task `failed_consecutive_errors`, any successful step resetting the
counter to zero; in the legacy loop the same counter logic ends the task
with status `failed_max_failures` instead (threshold 3), with the same
reset-on-success behaviour. -/
theorem consecutive_failures_policy :
    (∀ (t : AndroidLoopState) (h : Nat) (anyA : Bool) (pre : Option String),
      (androidCounterUpdate t h false anyA pre).consecutiveFailures =
        t.consecutiveFailures + 1 ∧
      (MAX_CONSECUTIVE_ACTION_FAILURES ≤ t.consecutiveFailures + 1 →
        (androidCounterUpdate t h false anyA pre).finalStatus =
          some "failed_consecutive_errors")) ∧
    (∀ (t : AndroidLoopState) (h : Nat) (pre : Option String),
      (androidCounterUpdate t h true true pre).consecutiveFailures = 0) ∧
    (∀ (s : LegacyLoopState) (i : LegacyStepInput) (name : String),
      s.finalStatus = none → i.screenshotOk = true → i.agentOk = true →
      ¬legacyStagnationFires s i → i.decision = .exec name false →
      (legacyStep s i).consecutiveFailures = s.consecutiveFailures + 1 ∧
      (MAX_CONSECUTIVE_FAILURES ≤ s.consecutiveFailures + 1 →
        (legacyStep s i).finalStatus = some "failed_max_failures") ∧
      (s.consecutiveFailures + 1 < MAX_CONSECUTIVE_FAILURES →
        (legacyStep s i).finalStatus = none)) ∧
    (∀ (s : LegacyLoopState) (i : LegacyStepInput) (name : String),
      s.finalStatus = none → i.screenshotOk = true → i.agentOk = true →
      ¬legacyStagnationFires s i → i.decision = .exec name true →
      (legacyStep s i).consecutiveFailures = 0) := by
  refine ⟨?_, ?_, ?_, ?_⟩
  · intro t h anyA pre
    by_cases hth : MAX_CONSECUTIVE_ACTION_FAILURES ≤ t.consecutiveFailures + 1
    · constructor
      · cases pre <;> simp [androidCounterUpdate, androidApplyPre, hth]
      · intro _
        cases pre <;> simp [androidCounterUpdate, androidApplyPre, hth]
    · constructor
      · cases pre <;> simp [androidCounterUpdate, androidApplyPre, hth]
      · intro hth2
        exact absurd hth2 hth
  · intro t h pre
    cases hph : t.prevHash with
    | none => cases pre <;> simp [androidCounterUpdate, androidApplyPre, hph]
    | some ph =>
      by_cases heq : ph = h
      · by_cases hth : MAX_STEPS_WITHOUT_STATE_CHANGE ≤
            t.stepsWithoutChange + 1 <;>
          cases pre <;>
            simp [androidCounterUpdate, androidApplyPre, hph, heq, hth]
      · cases pre <;>
          simp [androidCounterUpdate, androidApplyPre, hph, heq]
  · intro s i name hs hshot hag hng hdec
    rw [legacyStep_act s i hs hshot hag hng, hdec]
    by_cases hth : MAX_CONSECUTIVE_FAILURES ≤ s.consecutiveFailures + 1
    · refine ⟨?_, fun _ => ?_, fun hlt => absurd hth (by omega)⟩ <;>
        simp [legacyActOn, legacyAfterAct, hth]
    · refine ⟨?_, fun hge => absurd hge hth, fun _ => ?_⟩ <;>
        simp [legacyActOn, legacyAfterAct, hth, hs]
  · intro s i name hs hshot hag hng hdec
    rw [legacyStep_act s i hs hshot hag hng, hdec]
    simp [legacyActOn, legacyAfterAct, MAX_CONSECUTIVE_FAILURES]

/-- Witness for C7 (amended): with two failures on the books, one more
failing step ends the android loop `failed_consecutive_errors` and the
legacy loop `failed_max_failures`; a success resets both counters. -/
theorem consecutive_failures_policy_witness :
    (androidCounterUpdate { androidInit with consecutiveFailures := 2 }
      0 false false none).finalStatus = some "failed_consecutive_errors" ∧
    (legacyStep { legacyInit with consecutiveFailures := 2 }
      { screenshotOk := true, obsHash := 3, agentOk := true,
        decision := .exec "launch_app" false }).finalStatus =
      some "failed_max_failures" ∧
    (androidCounterUpdate { androidInit with consecutiveFailures := 2 }
      0 true true none).consecutiveFailures = 0 ∧
    (legacyStep { legacyInit with consecutiveFailures := 2 }
      wStagInput).consecutiveFailures = 0 := by
  have h := consecutive_failures_policy
  refine ⟨?_, ?_, ?_, ?_⟩
  · exact (h.1 { androidInit with consecutiveFailures := 2 } 0 false
      none).2 (by decide)
  · exact (h.2.2.1 { legacyInit with consecutiveFailures := 2 }
      { screenshotOk := true, obsHash := 3, agentOk := true,
        decision := .exec "launch_app" false } "launch_app" rfl rfl rfl
      (by intro hx; exact absurd hx.2 (by decide)) rfl).2.1 (by decide)
  · exact h.2.1 { androidInit with consecutiveFailures := 2 } 0 none
  · exact h.2.2.2 { legacyInit with consecutiveFailures := 2 }
      wStagInput "launch_app" rfl rfl rfl
      (by intro hx; exact absurd hx.2 (by decide)) rfl

/-- C8 counterexample: a `done` decision whose own success flag is
`false` still terminates the legacy loop with status `completed` — the
flag is never consulted there. -/
theorem legacy_done_ignores_flag_counterexample :
    (legacyStep legacyInit
      { screenshotOk := true, obsHash := 1, agentOk := true,
        decision := .doneD false }).finalStatus = some "completed" := by
  rfl

/-- C8 amended: a `done` decision terminates the loop immediately, with
no further steps executed (a terminal state absorbs every later step);
the legacy loop always returns `completed`, ignoring the decision's own
success flag, while the android loop dispatches `done` to the client and
returns `completed` or `failed` according to the success flag of the
client's execution result, likewise ignoring the decision's own flag. -/
theorem done_termination_policy :
    (∀ (s : LegacyLoopState) (i : LegacyStepInput) (b : Bool),
      s.finalStatus = none → i.screenshotOk = true → i.agentOk = true →
      ¬legacyStagnationFires s i → i.decision = .doneD b →
      (legacyStep s i).finalStatus = some "completed") ∧
    (∀ (mem : List Selector) (ds cs : Bool),
      androidActPhase mem (.doneD ds cs) =
        .doneTerm (if cs then "completed" else "failed") (some cs)) ∧
    (∀ (t : AndroidLoopState) (j : AndroidStepInput) (ds cs : Bool),
      t.finalStatus = none → j.screenshotOk = true → j.agentOk = true →
      j.decision = .doneD ds cs →
      (androidStep t j).finalStatus =
        some (if cs then "completed" else "failed")) ∧
    (∀ (t : AndroidLoopState) (j : AndroidStepInput),
      t.finalStatus.isSome → androidStep t j = t) ∧
    (∀ (s : LegacyLoopState) (i : LegacyStepInput),
      s.finalStatus.isSome → legacyStep s i = s) := by
  refine ⟨?_, ?_, ?_, ?_, ?_⟩
  · intro s i b hs hshot hag hng hdec
    rw [legacyStep_act s i hs hshot hag hng, hdec]
    simp [legacyActOn]
  · intro mem ds cs
    rfl
  · intro t j ds cs ht hjshot hjag hjdec
    simp [androidStep, ht, hjshot, hjag, hjdec, androidActPhase]
  · intro t j h
    simp [androidStep, h]
  · intro s i h
    simp [legacyStep, h]

/-- Witness for C8 (amended): `done(success := true)` completes the
legacy loop; in the android loop a client execution result with
`success = false` turns the very same decision into status `failed`. -/
theorem done_termination_policy_witness :
    (legacyStep legacyInit
      { screenshotOk := true, obsHash := 1, agentOk := true,
        decision := .doneD true }).finalStatus = some "completed" ∧
    (androidStep androidInit
      { screenshotOk := true, obsHash := 1, agentOk := true,
        decision := .doneD true false }).finalStatus = some "failed" ∧
    (androidStep androidInit
      { screenshotOk := true, obsHash := 1, agentOk := true,
        decision := .doneD true true }).finalStatus = some "completed" := by
  have h := done_termination_policy
  refine ⟨?_, ?_, ?_⟩
  · exact h.1 legacyInit
      { screenshotOk := true, obsHash := 1, agentOk := true,
        decision := .doneD true } true rfl rfl rfl
      (by intro hx; exact absurd hx.1 (by decide)) rfl
  · exact h.2.2.1 androidInit
      { screenshotOk := true, obsHash := 1, agentOk := true,
        decision := .doneD true false } true false rfl rfl rfl rfl
  · exact h.2.2.1 androidInit
      { screenshotOk := true, obsHash := 1, agentOk := true,
        decision := .doneD true true } true true rfl rfl rfl rfl
